import Mathlib

/-!
Verification of the doctor-appointment-system backend (FastAPI + SQLAlchemy).

Shallow embedding conventions:
* Calendar dates are `Nat` values counting days from an epoch that falls on a
  Monday, so `date.weekday()` becomes `d % 7` (0 = Monday .. 6 = Sunday),
  consistent under `date + timedelta(days=1)`.
* Times of day are `Nat` minutes since midnight (0 .. 1439).  The source's
  `datetime.combine(date, t) + timedelta(minutes=m)` followed by `.time()`
  becomes `(t + m) % 1440`: the date part is dropped, which is exactly the
  wrap-around behaviour of `.time()`.
* The database is a `DB` record holding the schedule and appointment tables as
  lists in rowid (insertion) order; `query(...).first()` is `List.find?`,
  `query(...).all()` with a filter is `List.filter`.  SQLite row ids start
  at 1, carried by `nextApptId` / `nextSchedId`.
* The `unique_doctor_appointment_slot` constraint on
  (doctor_id, appointment_date, appointment_time) and the
  `unique_doctor_schedule` constraint on
  (doctor_id, day_of_week, start_time, end_time) are modelled at each
  commit: a violating insert/update takes the `IntegrityError` branch and the
  transaction rolls back (state unchanged).
* Python truthiness: `if exclude_appointment_id:` is false for both `None`
  and `0`, so the parameter is a single `Nat` with `0` meaning "no exclusion".
  `date`, `time` (Python >= 3.5) and the status enum values are always
  truthy, so optional request fields are `Option` with presence = truthiness.
* The unbounded `while current_time < schedule.end_time` loop of
  `get_available_slots` is embedded with explicit fuel; `none` means the fuel
  ran out, i.e. the loop has not terminated within that many iterations.
-/

namespace DoctorApt

/-- Role of an authenticated user (`UserRole` in `models.py`). -/
inductive Role where
  | doctor
  | patient
deriving DecidableEq, Repr

/-- Appointment status enum (`AppointmentStatus` in `models.py`). -/
inductive AppointmentStatus where
  | scheduled
  | completed
  | cancelled
deriving DecidableEq, Repr

/-- An authenticated actor as provided by `get_current_user`. -/
structure Actor where
  id : Nat
  role : Role
deriving DecidableEq, Repr

/-- A row of the `schedules` table (`Schedule` in `models.py`).
Times are minutes since midnight. -/
structure Schedule where
  id : Nat
  doctor_id : Nat
  day_of_week : Nat
  start_time : Nat
  end_time : Nat
  slot_duration : Nat
  is_active : Bool
deriving DecidableEq, Repr

/-- A row of the `appointments` table (`Appointment` in `models.py`).
`updated_at` is not modelled: no claim mentions it and no control flow reads
it. `created_at` is kept because claim C10 names it. -/
structure Appointment where
  id : Nat
  doctor_id : Nat
  patient_id : Nat
  appointment_date : Nat
  appointment_time : Nat
  duration : Nat
  reason : String
  status : AppointmentStatus
  created_at : Nat
deriving DecidableEq, Repr

/-- The database state: both tables in rowid order plus the next free ids. -/
structure DB where
  schedules : List Schedule
  appointments : List Appointment
  nextApptId : Nat
  nextSchedId : Nat
deriving DecidableEq, Repr

/-- The empty database. -/
def emptyDB : DB := { schedules := [], appointments := [], nextApptId := 1, nextSchedId := 1 }

/-- `date.weekday()` for a day count from a Monday epoch. -/
def weekday (d : Nat) : Nat := d % 7

/-- Request body for `POST /appointments/` (`AppointmentCreate` in
`schemas.py`). -/
structure AppointmentCreate where
  doctor_id : Nat
  appointment_date : Nat
  appointment_time : Nat
  reason : String
  duration : Nat
deriving DecidableEq, Repr

/-- Request body for `PUT /appointments/{id}` (`AppointmentUpdate` in
`schemas.py`); `none` = field absent from the request. -/
structure AppointmentUpdate where
  appointment_date : Option Nat
  appointment_time : Option Nat
  reason : Option String
  status : Option AppointmentStatus
deriving DecidableEq, Repr

/-- Request body for `POST /schedules/` (`ScheduleCreate` in `schemas.py`). -/
structure ScheduleCreate where
  day_of_week : Nat
  start_time : Nat
  end_time : Nat
  slot_duration : Nat
deriving DecidableEq, Repr

/-- Request body for `PUT /schedules/{id}` (`ScheduleUpdate` in
`schemas.py`); `none` = field absent from the request. -/
structure ScheduleUpdate where
  day_of_week : Option Nat
  start_time : Option Nat
  end_time : Option Nat
  slot_duration : Option Nat
  is_active : Option Bool
deriving DecidableEq, Repr

/-- A derived available slot (`AvailableSlot` in `schemas.py`). -/
structure AvailableSlot where
  date : Nat
  time : Nat
  doctor_id : Nat
deriving DecidableEq, Repr

/-- `crud_appointment.check_slot_availability`.  `exclude` is the
`exclude_appointment_id` argument with `0` meaning `None` (both are falsy in
the source's `if exclude_appointment_id:`). -/
def check_slot_availability (db : DB) (doctor_id date time exclude : Nat) : Bool :=
  match db.schedules.find? (fun s =>
      s.doctor_id == doctor_id && s.day_of_week == weekday date && s.is_active) with
  | none => false
  | some schedule =>
    if schedule.start_time ≤ time && time < schedule.end_time then
      (db.appointments.find? (fun a =>
        a.doctor_id == doctor_id && a.appointment_date == date &&
        a.appointment_time == time && a.status != AppointmentStatus.cancelled &&
        (exclude == 0 || a.id != exclude))).isNone
    else
      false

/-- `crud_appointment.create_appointment`.  Returns `none` on the
`IntegrityError` branch (the `unique_doctor_appointment_slot` constraint:
some row — of any status, including CANCELLED — already holds the same
(doctor_id, appointment_date, appointment_time) triple), in which case the
transaction is rolled back. `today` only stamps `created_at`. -/
def create_appointment (db : DB) (req : AppointmentCreate) (patient_id today : Nat) :
    Option Appointment × DB :=
  if db.appointments.any (fun b =>
      b.doctor_id == req.doctor_id && b.appointment_date == req.appointment_date &&
      b.appointment_time == req.appointment_time) then
    (none, db)
  else
    let a : Appointment :=
      { id := db.nextApptId, doctor_id := req.doctor_id, patient_id := patient_id,
        appointment_date := req.appointment_date, appointment_time := req.appointment_time,
        duration := req.duration, reason := req.reason,
        status := AppointmentStatus.scheduled, created_at := today }
    (some a, { db with appointments := db.appointments ++ [a], nextApptId := db.nextApptId + 1 })

/-- Outcome of `POST /appointments/`; constructors mirror the distinct error
paths of the source (pydantic 422, role 403, availability 400 "This time slot
is not available", IntegrityError 400 "This time slot is already booked"). -/
inductive BookResult where
  | ok (a : Appointment)
  | pastDate
  | forbiddenRole
  | slotNotAvailable
  | alreadyBooked
deriving DecidableEq, Repr

/-- `appointments.create_new_appointment` (the `POST /appointments/` handler)
including the `AppointmentBase.validate_future_date` pydantic validator, which
runs before the handler and rejects `appointment_date < date.today()`. -/
def create_new_appointment (today : Nat) (db : DB) (actor : Actor) (req : AppointmentCreate) :
    BookResult × DB :=
  if req.appointment_date < today then
    (.pastDate, db)
  else if actor.role != Role.patient then
    (.forbiddenRole, db)
  else if !check_slot_availability db req.doctor_id req.appointment_date req.appointment_time 0 then
    (.slotNotAvailable, db)
  else
    match create_appointment db req actor.id today with
    | (none, d) => (.alreadyBooked, d)
    | (some a, d) => (.ok a, d)

/-- Field-merge performed by `update_appointment`'s
`for field, value in update_data.items(): setattr(appointment, field, value)`
with `update_data = appointment_update.dict(exclude_unset=True)`. -/
def applyUpdate (a : Appointment) (u : AppointmentUpdate) : Appointment :=
  { a with
    appointment_date := u.appointment_date.getD a.appointment_date,
    appointment_time := u.appointment_time.getD a.appointment_time,
    reason := u.reason.getD a.reason,
    status := u.status.getD a.status }

/-- Outcome of the CRUD-level `update_appointment` (`valueError` is the
`IntegrityError` → `ValueError("This time slot is already booked")` branch). -/
inductive CrudUpdResult where
  | notFound
  | valueError
  | ok (a : Appointment)
deriving DecidableEq, Repr

/-- `crud_appointment.update_appointment`: find by id, setattr the present
fields, commit (rolling back if the updated row now collides with another row
on the `unique_doctor_appointment_slot` triple). -/
def update_appointment (db : DB) (aid : Nat) (u : AppointmentUpdate) : CrudUpdResult × DB :=
  match db.appointments.find? (fun a => a.id == aid) with
  | none => (.notFound, db)
  | some apt =>
    let apt2 := applyUpdate apt u
    if db.appointments.any (fun b =>
        b.id != aid && b.doctor_id == apt2.doctor_id &&
        b.appointment_date == apt2.appointment_date &&
        b.appointment_time == apt2.appointment_time) then
      (.valueError, db)
    else
      (.ok apt2,
        { db with appointments := db.appointments.map (fun b => if b.id == aid then apt2 else b) })

/-- Outcome of `PUT /appointments/{id}`. -/
inductive ApptUpdResult where
  | notFound
  | forbidden
  | patientsOnlyCancel
  | slotNotAvailable
  | valueError
  | ok (a : Appointment)
deriving DecidableEq, Repr

/-- `appointments.update_appointment_by_id` (the `PUT /appointments/{id}`
handler): permission checks, then — only when a date or time is present — the
availability re-check with the appointment's own id excluded, then the CRUD
update.  There is no status state-machine check and no past-date check. -/
def update_appointment_by_id (db : DB) (actor : Actor) (aid : Nat) (u : AppointmentUpdate) :
    ApptUpdResult × DB :=
  match db.appointments.find? (fun a => a.id == aid) with
  | none => (.notFound, db)
  | some apt =>
    if actor.role == Role.patient && apt.patient_id != actor.id then
      (.forbidden, db)
    else if actor.role == Role.patient && u.status.isSome &&
        u.status != some AppointmentStatus.cancelled then
      (.patientsOnlyCancel, db)
    else if actor.role == Role.doctor && apt.doctor_id != actor.id then
      (.forbidden, db)
    else if (u.appointment_date.isSome || u.appointment_time.isSome) &&
        !check_slot_availability db apt.doctor_id
          (u.appointment_date.getD apt.appointment_date)
          (u.appointment_time.getD apt.appointment_time) aid then
      (.slotNotAvailable, db)
    else
      match update_appointment db aid u with
      | (CrudUpdResult.notFound, d) => (.notFound, d)
      | (CrudUpdResult.valueError, d) => (.valueError, d)
      | (CrudUpdResult.ok a, d) => (.ok a, d)

/-- Outcome of `DELETE /appointments/{id}`. -/
inductive CancelResult where
  | notFound
  | forbidden
  | valueError
  | ok
deriving DecidableEq, Repr

/-- `appointments.cancel_appointment` (the `DELETE /appointments/{id}`
handler): permission checks, then a status-only CRUD update to CANCELLED
("Update status to cancelled instead of deleting"). -/
def cancel_appointment (db : DB) (actor : Actor) (aid : Nat) : CancelResult × DB :=
  match db.appointments.find? (fun a => a.id == aid) with
  | none => (.notFound, db)
  | some apt =>
    if actor.role == Role.patient && apt.patient_id != actor.id then
      (.forbidden, db)
    else if actor.role == Role.doctor && apt.doctor_id != actor.id then
      (.forbidden, db)
    else
      match update_appointment db aid
          { appointment_date := none, appointment_time := none, reason := none,
            status := some AppointmentStatus.cancelled } with
      | (CrudUpdResult.notFound, d) => (.notFound, d)
      | (CrudUpdResult.valueError, d) => (.valueError, d)
      | (CrudUpdResult.ok _, d) => (.ok, d)

/-- The two pydantic validators on `ScheduleBase`: `day_of_week` in 0..6 and
`end_time` strictly after `start_time`.  Note there is no validator on
`slot_duration`. -/
def validate_schedule_create (sc : ScheduleCreate) : Bool :=
  sc.day_of_week ≤ 6 && sc.start_time < sc.end_time

/-- Outcome of `POST /schedules/` (`duplicateSchedule` is the `IntegrityError`
→ `ValueError("A schedule already exists for this day and time")` branch on
the `unique_doctor_schedule` constraint). -/
inductive CreateSchedResult where
  | validationError
  | forbiddenRole
  | duplicateSchedule
  | ok (s : Schedule)
deriving DecidableEq, Repr

/-- `schedules.create_doctor_schedule` (the `POST /schedules/` handler)
composed with `crud_schedule.create_schedule`; pydantic validation runs first,
then the role check, then the insert with its uniqueness constraint.
`is_active` takes its column default `True`. -/
def create_doctor_schedule (db : DB) (actor : Actor) (sc : ScheduleCreate) :
    CreateSchedResult × DB :=
  if !validate_schedule_create sc then
    (.validationError, db)
  else if actor.role != Role.doctor then
    (.forbiddenRole, db)
  else if db.schedules.any (fun s =>
      s.doctor_id == actor.id && s.day_of_week == sc.day_of_week &&
      s.start_time == sc.start_time && s.end_time == sc.end_time) then
    (.duplicateSchedule, db)
  else
    let s : Schedule :=
      { id := db.nextSchedId, doctor_id := actor.id, day_of_week := sc.day_of_week,
        start_time := sc.start_time, end_time := sc.end_time,
        slot_duration := sc.slot_duration, is_active := true }
    (.ok s, { db with schedules := db.schedules ++ [s], nextSchedId := db.nextSchedId + 1 })

/-- Field-merge performed by `update_schedule`'s setattr loop over
`schedule_update.dict(exclude_unset=True)`. -/
def applyScheduleUpdate (s : Schedule) (u : ScheduleUpdate) : Schedule :=
  { s with
    day_of_week := u.day_of_week.getD s.day_of_week,
    start_time := u.start_time.getD s.start_time,
    end_time := u.end_time.getD s.end_time,
    slot_duration := u.slot_duration.getD s.slot_duration,
    is_active := u.is_active.getD s.is_active }

/-- Outcome of the CRUD-level `update_schedule`; `deactivateConflict n` is
`ValueError("Cannot deactivate schedule: n appointments would be affected")`,
`hoursConflict n` is
`ValueError("Cannot modify schedule: n appointments would be outside new hours")`. -/
inductive SchedUpdResult where
  | notFound
  | forbidden
  | deactivateConflict (n : Nat)
  | hoursConflict (n : Nat)
  | duplicateSchedule
  | ok (s : Schedule)
deriving DecidableEq, Repr

/-- `crud_schedule.update_schedule`.  The deactivation guard scans future
SCHEDULED appointments of the doctor that fall on the window's weekday inside
the OLD bounds; the hours guard (run whenever `start_time` or `end_time` is
present — widening included) scans the same future SCHEDULED appointments and
rejects if any same-weekday one lies outside the NEW bounds, whether or not it
was inside this window before.  No bounds validation is performed
(`ScheduleUpdate` has no validators). -/
def update_schedule (today : Nat) (db : DB) (sid : Nat) (u : ScheduleUpdate) :
    SchedUpdResult × DB :=
  match db.schedules.find? (fun s => s.id == sid) with
  | none => (.notFound, db)
  | some schedule =>
    let future := db.appointments.filter (fun a =>
      a.doctor_id == schedule.doctor_id && today ≤ a.appointment_date &&
      a.status == AppointmentStatus.scheduled)
    let deactConflicts := future.filter (fun a =>
      weekday a.appointment_date == schedule.day_of_week &&
      (schedule.start_time ≤ a.appointment_time && a.appointment_time < schedule.end_time))
    if u.is_active == some false && !deactConflicts.isEmpty then
      (.deactivateConflict deactConflicts.length, db)
    else
      let new_start := u.start_time.getD schedule.start_time
      let new_end := u.end_time.getD schedule.end_time
      let hoursConflicts := future.filter (fun a =>
        weekday a.appointment_date == schedule.day_of_week &&
        !(new_start ≤ a.appointment_time && a.appointment_time < new_end))
      if (u.start_time.isSome || u.end_time.isSome) && !hoursConflicts.isEmpty then
        (.hoursConflict hoursConflicts.length, db)
      else
        let schedule2 := applyScheduleUpdate schedule u
        if db.schedules.any (fun s =>
            s.id != sid && s.doctor_id == schedule2.doctor_id &&
            s.day_of_week == schedule2.day_of_week &&
            s.start_time == schedule2.start_time && s.end_time == schedule2.end_time) then
          (.duplicateSchedule, db)
        else
          (.ok schedule2,
            { db with schedules := db.schedules.map (fun s => if s.id == sid then schedule2 else s) })

/-- `schedules.update_doctor_schedule` (the `PUT /schedules/{id}` handler):
ownership check, then the CRUD update. -/
def update_doctor_schedule (today : Nat) (db : DB) (actor : Actor) (sid : Nat)
    (u : ScheduleUpdate) : SchedUpdResult × DB :=
  match db.schedules.find? (fun s => s.id == sid) with
  | none => (.notFound, db)
  | some schedule =>
    if schedule.doctor_id != actor.id then (.forbidden, db)
    else update_schedule today db sid u

/-- Outcome of `DELETE /schedules/{id}`; `hasAppointments n` is
`ValueError("Cannot delete schedule: n appointments would be affected")`. -/
inductive DelSchedResult where
  | notFound
  | forbidden
  | hasAppointments (n : Nat)
  | ok
deriving DecidableEq, Repr

/-- `schedules.delete_doctor_schedule` composed with
`crud_schedule.delete_schedule`: ownership check, then refuse while a future
SCHEDULED appointment falls on the window's weekday inside its bounds,
otherwise hard-delete the schedule row. -/
def delete_doctor_schedule (today : Nat) (db : DB) (actor : Actor) (sid : Nat) :
    DelSchedResult × DB :=
  match db.schedules.find? (fun s => s.id == sid) with
  | none => (.notFound, db)
  | some schedule =>
    if schedule.doctor_id != actor.id then (.forbidden, db)
    else
      let future := db.appointments.filter (fun a =>
        a.doctor_id == schedule.doctor_id && today ≤ a.appointment_date &&
        a.status == AppointmentStatus.scheduled)
      let conflicting := future.filter (fun a =>
        weekday a.appointment_date == schedule.day_of_week &&
        (schedule.start_time ≤ a.appointment_time && a.appointment_time < schedule.end_time))
      if !conflicting.isEmpty then (.hasAppointments conflicting.length, db)
      else (.ok, { db with schedules := db.schedules.filter (fun s => s.id != sid) })

/-- Lexicographic key order used by
`order_by(Schedule.day_of_week, Schedule.start_time)`. -/
def schedKeyLE (a b : Schedule) : Bool :=
  a.day_of_week < b.day_of_week ||
    (a.day_of_week == b.day_of_week && a.start_time ≤ b.start_time)

/-- Stable insertion placing a row after every already-placed row whose key is
less or equal, so rows with equal keys keep rowid order — the tie-breaking
SQLite applies. -/
def insertSched (s : Schedule) : List Schedule → List Schedule
  | [] => [s]
  | t :: ts => if schedKeyLE t s then t :: insertSched s ts else s :: t :: ts

/-- Stable sort of the schedule rows by (day_of_week, start_time). -/
def sortSchedules (l : List Schedule) : List Schedule :=
  l.foldl (fun acc s => insertSched s acc) []

/-- `crud_schedule.get_schedules_by_doctor`: the doctor's active schedules
ordered by day_of_week then start_time. -/
def get_schedules_by_doctor (db : DB) (doctor_id : Nat) : List Schedule :=
  sortSchedules (db.schedules.filter (fun s => s.doctor_id == doctor_id && s.is_active))

/-- The inner `while current_time < schedule.end_time` loop of
`get_available_slots`, as a fuel-indexed function: one fuel per iteration,
`none` when the fuel runs out before the loop exits.  The slot step
`datetime.combine(date, t) + timedelta(minutes=m)` → `.time()` is
`(t + m) % 1440`. -/
def genWindowSlots (booked : List (Nat × Nat)) (did d e dur : Nat) :
    Nat → Nat → Option (List AvailableSlot)
  | 0, cur => if cur < e then none else some []
  | fuel + 1, cur =>
    if cur < e then
      match genWindowSlots booked did d e dur fuel ((cur + dur) % 1440) with
      | none => none
      | some rest =>
        if booked.contains (d, cur) then some rest
        else some ({ date := d, time := cur, doctor_id := did } :: rest)
    else
      some []

/-- The `for schedule in day_schedules` loop of `get_available_slots`:
windows are enumerated in the order `get_schedules_by_doctor` returned them,
their slot lists concatenated. -/
def daySlots (booked : List (Nat × Nat)) (did d fuel : Nat) :
    List Schedule → Option (List AvailableSlot)
  | [] => some []
  | s :: ss =>
    match genWindowSlots booked did d s.end_time s.slot_duration fuel s.start_time,
        daySlots booked did d fuel ss with
    | some w, some rest => some (w ++ rest)
    | _, _ => none

/-- The outer `while current_date <= end_date` loop of `get_available_slots`,
by countdown on the number of remaining days. -/
def availLoop (schedules : List Schedule) (booked : List (Nat × Nat)) (did fuel : Nat) :
    Nat → Nat → Option (List AvailableSlot)
  | 0, _ => some []
  | n + 1, d =>
    match daySlots booked did d fuel (schedules.filter (fun s => s.day_of_week == weekday d)),
        availLoop schedules booked did fuel n (d + 1) with
    | some here, some rest => some (here ++ rest)
    | _, _ => none

/-- `crud_schedule.get_available_slots` for the inclusive range
`[start_date, end_date]`, with explicit fuel for the inner while loop. -/
def get_available_slots (fuel : Nat) (db : DB) (doctor_id start_date end_date : Nat) :
    Option (List AvailableSlot) :=
  let schedules := get_schedules_by_doctor db doctor_id
  if schedules.isEmpty then some []
  else
    let booked := (db.appointments.filter (fun a =>
      a.doctor_id == doctor_id && start_date ≤ a.appointment_date &&
      a.appointment_date ≤ end_date && a.status != AppointmentStatus.cancelled)).map
        (fun a => (a.appointment_date, a.appointment_time))
    availLoop schedules booked doctor_id fuel (end_date + 1 - start_date) start_date

/-- One external operation against the API, as used by claim C1's
"any sequence of operations". -/
inductive Op where
  | book (actor : Actor) (req : AppointmentCreate)
  | putAppt (actor : Actor) (aid : Nat) (u : AppointmentUpdate)
  | delAppt (actor : Actor) (aid : Nat)
  | postSched (actor : Actor) (sc : ScheduleCreate)
  | putSched (actor : Actor) (sid : Nat) (u : ScheduleUpdate)
  | delSched (actor : Actor) (sid : Nat)
deriving DecidableEq, Repr

/-- Apply one operation to the database, keeping only the resulting state. -/
def step (today : Nat) (db : DB) : Op → DB
  | .book a r => (create_new_appointment today db a r).2
  | .putAppt a i u => (update_appointment_by_id db a i u).2
  | .delAppt a i => (cancel_appointment db a i).2
  | .postSched a sc => (create_doctor_schedule db a sc).2
  | .putSched a i u => (update_doctor_schedule today db a i u).2
  | .delSched a i => (delete_doctor_schedule today db a i).2

/-- Run a sequence of operations from the empty database. -/
def run (today : Nat) (ops : List Op) : DB :=
  ops.foldl (step today) emptyDB

/-- Two appointments over the same (doctor_id, appointment_date,
appointment_time) triple. -/
def sameSlot (a b : Appointment) : Prop :=
  a.doctor_id = b.doctor_id ∧ a.appointment_date = b.appointment_date ∧
    a.appointment_time = b.appointment_time

instance (a b : Appointment) : Decidable (sameSlot a b) :=
  inferInstanceAs (Decidable (_ ∧ _ ∧ _))

/-- All rows have pairwise distinct booking triples — the
`unique_doctor_appointment_slot` constraint. -/
def UniqueTriples (l : List Appointment) : Prop :=
  l.Pairwise (fun a b => ¬ sameSlot a b)

/-- All rows have pairwise distinct primary keys. -/
def UniqueIds (l : List Appointment) : Prop :=
  l.Pairwise (fun a b => a.id ≠ b.id)

/-- The id counter dominates every stored id. -/
def IdsBelow (db : DB) : Prop :=
  ∀ a ∈ db.appointments, a.id < db.nextApptId

/-- Reachable-state invariant of the appointments table. -/
def Inv (db : DB) : Prop :=
  UniqueIds db.appointments ∧ IdsBelow db ∧ UniqueTriples db.appointments

/-- Claim C1's stated invariant: at most one non-CANCELLED appointment per
(doctor_id, date, time) triple. -/
def AtMostOneActive (db : DB) : Prop :=
  ∀ did d t,
    (db.appointments.filter (fun a =>
      a.doctor_id == did && a.appointment_date == d && a.appointment_time == t &&
      a.status != AppointmentStatus.cancelled)).length ≤ 1

/-! Concrete states used by counterexamples and witnesses. -/

/-- A doctor-1 window: Monday 9:00-17:00 in 30-minute slots. -/
def schedNine : Schedule :=
  { id := 1, doctor_id := 1, day_of_week := 0, start_time := 540, end_time := 1020,
    slot_duration := 30, is_active := true }

/-- A SCHEDULED appointment of patient 2 with doctor 1 on day 7 (a Monday)
at 9:00. -/
def aptNine : Appointment :=
  { id := 1, doctor_id := 1, patient_id := 2, appointment_date := 7, appointment_time := 540,
    duration := 30, reason := "checkup", status := AppointmentStatus.scheduled, created_at := 0 }

/-- State for C2: one booked slot, one matching window. -/
def dbBooked : DB :=
  { schedules := [schedNine], appointments := [aptNine], nextApptId := 2, nextSchedId := 2 }

/-- State for C3: a COMPLETED appointment of doctor 1. -/
def dbCompleted : DB :=
  { schedules := [],
    appointments := [{ aptNine with status := AppointmentStatus.completed }],
    nextApptId := 2, nextSchedId := 1 }

/-- State for C4: doctor 1 has two Monday windows, 9:00-10:00 and
20:00-21:00, and a future SCHEDULED appointment at 20:00 inside the second
window. -/
def dbTwoWindows : DB :=
  { schedules := [{ id := 1, doctor_id := 1, day_of_week := 0, start_time := 540, end_time := 600,
                    slot_duration := 30, is_active := true },
                  { id := 2, doctor_id := 1, day_of_week := 0, start_time := 1200, end_time := 1260,
                    slot_duration := 30, is_active := true }],
    appointments := [{ aptNine with appointment_time := 1200 }],
    nextApptId := 2, nextSchedId := 3 }

/-- State for C5: a CANCELLED appointment on day 14 at 9:00 plus the Monday
window; day 7 is strictly before today = 10. -/
def dbCancelled : DB :=
  { schedules := [schedNine],
    appointments := [{ aptNine with
                       appointment_date := 14, status := AppointmentStatus.cancelled }],
    nextApptId := 2, nextSchedId := 2 }

/-- State for C6: two overlapping active Monday windows of doctor 1,
9:00-11:00 and 9:30-10:30, both with 30-minute slots. -/
def dbOverlap : DB :=
  { schedules := [{ id := 1, doctor_id := 1, day_of_week := 0, start_time := 540, end_time := 660,
                    slot_duration := 30, is_active := true },
                  { id := 2, doctor_id := 1, day_of_week := 0, start_time := 570, end_time := 630,
                    slot_duration := 30, is_active := true }],
    appointments := [], nextApptId := 1, nextSchedId := 3 }

/-- State for C7: a single active Monday window 23:00-23:59 with 60-minute
slots — the last slot step crosses midnight. -/
def dbMidnight : DB :=
  { schedules := [{ id := 1, doctor_id := 1, day_of_week := 0, start_time := 1380,
                    end_time := 1439, slot_duration := 60, is_active := true }],
    appointments := [], nextApptId := 1, nextSchedId := 2 }

/-- State for C9: a lone Monday window 9:00-10:00 and no appointments. -/
def dbLoneWindow : DB :=
  { schedules := [{ id := 1, doctor_id := 1, day_of_week := 0, start_time := 540, end_time := 600,
                    slot_duration := 30, is_active := true }],
    appointments := [], nextApptId := 1, nextSchedId := 2 }

/-- The full output of `get_available_slots` on `dbOverlap` for day 0:
window 1 contributes 9:00,9:30,10:00,10:30 and window 2 then re-contributes
9:30,10:00. -/
def overlapOut : List AvailableSlot :=
  [{ date := 0, time := 540, doctor_id := 1 }, { date := 0, time := 570, doctor_id := 1 },
   { date := 0, time := 600, doctor_id := 1 }, { date := 0, time := 630, doctor_id := 1 },
   { date := 0, time := 570, doctor_id := 1 }, { date := 0, time := 600, doctor_id := 1 }]

/-- The sixteen slot times a 9:00-17:00 window with 30-minute slots yields on
day `d` for doctor `did`: 9:00, 9:30, ..., 16:30. -/
def nineToFiveSlots (d did : Nat) : List AvailableSlot :=
  [{ date := d, time := 540, doctor_id := did }, { date := d, time := 570, doctor_id := did },
   { date := d, time := 600, doctor_id := did }, { date := d, time := 630, doctor_id := did },
   { date := d, time := 660, doctor_id := did }, { date := d, time := 690, doctor_id := did },
   { date := d, time := 720, doctor_id := did }, { date := d, time := 750, doctor_id := did },
   { date := d, time := 780, doctor_id := did }, { date := d, time := 810, doctor_id := did },
   { date := d, time := 840, doctor_id := did }, { date := d, time := 870, doctor_id := did },
   { date := d, time := 900, doctor_id := did }, { date := d, time := 930, doctor_id := did },
   { date := d, time := 960, doctor_id := did }, { date := d, time := 990, doctor_id := did }]

/-- The single-window database of claim C8: one active window 9:00-17:00 with
30-minute slots on the weekday of `d`, no appointments. -/
def nineToFiveDB (did sid d : Nat) : DB :=
  { schedules := [{ id := sid, doctor_id := did, day_of_week := weekday d, start_time := 540,
                    end_time := 1020, slot_duration := 30, is_active := true }],
    appointments := [], nextApptId := 1, nextSchedId := sid + 1 }

/-- C2, code bug: cancelling a SCHEDULED appointment is a soft delete and the
availability check then reports the (doctor, date, time) slot free, yet
re-booking the identical triple hits the `unique_doctor_appointment_slot`
constraint (which covers CANCELLED rows as well) and fails with
`IntegrityError` → `ValueError("This time slot is already booked")`, leaving
the state unchanged — the spec requires this re-booking to succeed. -/
theorem C2_rebooking_after_cancel_fails :
    (cancel_appointment dbBooked { id := 2, role := Role.patient } 1).1 = CancelResult.ok ∧
    ((cancel_appointment dbBooked { id := 2, role := Role.patient } 1).2).appointments =
      [{ aptNine with status := AppointmentStatus.cancelled }] ∧
    check_slot_availability
      (cancel_appointment dbBooked { id := 2, role := Role.patient } 1).2 1 7 540 0 = true ∧
    create_new_appointment 0 (cancel_appointment dbBooked { id := 2, role := Role.patient } 1).2
      { id := 2, role := Role.patient }
      { doctor_id := 1, appointment_date := 7, appointment_time := 540,
        reason := "again", duration := 30 } =
      (BookResult.alreadyBooked,
        (cancel_appointment dbBooked { id := 2, role := Role.patient } 1).2) := by
  decide

/-- C3, counterexample: the owning doctor moves a COMPLETED appointment back
to SCHEDULED; the handler performs no state-machine check, returns success and
stores the resurrected status — the claim says this must fail with
`InvalidTransition` and leave the appointment unchanged. -/
theorem C3_terminal_status_resurrected :
    update_appointment_by_id dbCompleted { id := 1, role := Role.doctor } 1
      { appointment_date := none, appointment_time := none, reason := none,
        status := some AppointmentStatus.scheduled } =
      (ApptUpdResult.ok { aptNine with status := AppointmentStatus.scheduled },
        { dbCompleted with
          appointments := [{ aptNine with status := AppointmentStatus.scheduled }] }) := by
  decide

/-- C4, counterexample: widening doctor 1's Monday 9:00-10:00 window to
8:00-12:00 is rejected with the "would be outside new hours" error because a
SCHEDULED appointment at 20:00 — inside the doctor's *other* Monday window —
is outside the new bounds; the claim says a widening edit is always
accepted. -/
theorem C4_widening_rejected :
    update_schedule 0 dbTwoWindows 1
      { day_of_week := none, start_time := some 480, end_time := some 720,
        slot_duration := none, is_active := none } =
      (SchedUpdResult.hoursConflict 1, dbTwoWindows) := by
  decide

/-- C5, counterexample: with today = 10, a fresh booking of doctor 1's day-7
9:00-window slot at 10:00 is rejected as a past date, yet rescheduling the
CANCELLED appointment 1 to that same (day 7, 10:00) slot succeeds — the
reschedule path has no past-date check and no SCHEDULED-only restriction. -/
theorem C5_reschedule_past_date_cancelled :
    create_new_appointment 10 dbCancelled { id := 2, role := Role.patient }
      { doctor_id := 1, appointment_date := 7, appointment_time := 600,
        reason := "fresh", duration := 30 } = (BookResult.pastDate, dbCancelled) ∧
    (update_appointment_by_id dbCancelled { id := 1, role := Role.doctor } 1
      { appointment_date := some 7, appointment_time := some 600, reason := none,
        status := none }).1 =
      ApptUpdResult.ok { aptNine with
                         appointment_date := 7, appointment_time := 600,
                         status := AppointmentStatus.cancelled } ∧
    (dbCancelled.appointments.map Appointment.status) = [AppointmentStatus.cancelled] := by
  decide

/-- C6, counterexample: with two overlapping active Monday windows the
generator emits the pair (day 0, 9:30) twice — no dedup by (date, time) — and
the output is not ordered by date then time (9:30 follows 10:30). -/
theorem C6_overlapping_windows_duplicates :
    get_available_slots 50 dbOverlap 1 0 0 = some overlapOut ∧
    ¬ (overlapOut.map (fun s => (s.date, s.time))).Nodup ∧
    ¬ overlapOut.Pairwise (fun a b =>
        a.date < b.date ∨ (a.date = b.date ∧ a.time ≤ b.time)) := by
  decide

/-- Core of C7: in the 23:00-23:59 window with 60-minute slots, every slot
pointer reachable from 23:00 is a multiple of 60 below 1440, hence below the
23:59 bound, and the wrap-around `(t + 60) % 1440` keeps it so: the loop body
never reaches the exit condition, whatever the fuel. -/
theorem gen_midnight_none (f : Nat) : ∀ cur : Nat, cur % 60 = 0 → cur < 1440 →
    genWindowSlots [] 1 0 1439 60 f cur = none := by
  induction f with
  | zero =>
    intro cur h60 hlt
    simp only [genWindowSlots]
    rw [if_pos (by omega : cur < 1439)]
  | succ f ih =>
    intro cur h60 hlt
    simp only [genWindowSlots]
    rw [if_pos (by omega : cur < 1439), ih ((cur + 60) % 1440) (by omega) (by omega)]

/-- C7, code bug: for the window 23:00-23:59 with 60-minute slots the
source's `while current_time < schedule.end_time` loop never terminates
(`next_datetime.time()` wraps past midnight below `end_time`); in the fuel
embedding the computation exhausts every fuel bound — the claim says slot
generation terminates for every valid window. -/
theorem C7_midnight_window_never_terminates (fuel : Nat) :
    get_available_slots fuel dbMidnight 1 0 0 = none := by
  have h := gen_midnight_none fuel 1380 (by norm_num) (by norm_num)
  show availLoop dbMidnight.schedules [] 1 fuel 1 0 = none
  simp only [availLoop, daySlots, dbMidnight, List.filter, weekday]
  rw [h]

/-- C9, counterexample: creating a window with `slot_duration = 0` passes the
schema validators and succeeds, and editing the lone 9:00-10:00 window to
`start_time = 10:00, end_time = 9:00` (start ≥ end) is accepted and stored —
bounds are not enforced as the claim states. -/
theorem C9_bounds_not_enforced :
    (create_doctor_schedule emptyDB { id := 1, role := Role.doctor }
      { day_of_week := 0, start_time := 540, end_time := 1020, slot_duration := 0 }).1 =
      CreateSchedResult.ok { id := 1, doctor_id := 1, day_of_week := 0, start_time := 540,
                             end_time := 1020, slot_duration := 0, is_active := true } ∧
    update_schedule 0 dbLoneWindow 1
      { day_of_week := none, start_time := some 600, end_time := some 540,
        slot_duration := none, is_active := none } =
      (SchedUpdResult.ok { id := 1, doctor_id := 1, day_of_week := 0, start_time := 600,
                           end_time := 540, slot_duration := 30, is_active := true },
       { dbLoneWindow with
         schedules := [{ id := 1, doctor_id := 1, day_of_week := 0, start_time := 600,
                         end_time := 540, slot_duration := 30, is_active := true }] }) ∧
    ¬ (600 : Nat) < 540 := by
  decide

/-- C9 as amended: the pydantic validators on `ScheduleCreate` do enforce
`start_time < end_time` (and a 0..6 weekday) for every window that creation
stores; positivity of the slot duration and all bounds on edits are not
enforced (see the counterexample). -/
theorem C9_creation_enforces_bounds (db : DB) (actor : Actor) (sc : ScheduleCreate)
    (s : Schedule) (db2 : DB)
    (h : create_doctor_schedule db actor sc = (CreateSchedResult.ok s, db2)) :
    s.start_time < s.end_time ∧ s.day_of_week ≤ 6 := by
  simp only [create_doctor_schedule] at h
  split at h
  case isTrue hv => simp at h
  case isFalse hv =>
    split at h
    case isTrue => simp at h
    case isFalse =>
      split at h
      case isTrue => simp at h
      case isFalse =>
        simp only [Prod.mk.injEq, CreateSchedResult.ok.injEq] at h
        obtain ⟨hs, _⟩ := h
        subst hs
        have hv2 : validate_schedule_create sc = true := by
          revert hv
          cases validate_schedule_create sc <;> simp
        simp only [validate_schedule_create, Bool.and_eq_true, decide_eq_true_eq] at hv2
        exact ⟨hv2.2, hv2.1⟩

/-- C9 witness: a well-formed creation request, run through the theorem. -/
theorem C9_creation_enforces_bounds_witness :
    schedNine.start_time < schedNine.end_time ∧ schedNine.day_of_week ≤ 6 :=
  C9_creation_enforces_bounds emptyDB { id := 1, role := Role.doctor }
    { day_of_week := 0, start_time := 540, end_time := 1020, slot_duration := 30 }
    schedNine { emptyDB with schedules := [schedNine], nextSchedId := 2 } rfl

/-- C3 as amended: the role policy admits the claimed transitions, but
COMPLETED and CANCELLED are not terminal: for an appointment in ANY current
status, a status-only update by the owning doctor to ANY target status
succeeds and is stored; no `InvalidTransition` outcome exists in the code. -/
theorem C3_no_terminal_enforcement (db : DB) (actor : Actor) (aid : Nat) (apt : Appointment)
    (st : AppointmentStatus)
    (hFind : db.appointments.find? (fun a => a.id == aid) = some apt)
    (hRole : actor.role = Role.doctor)
    (hOwn : apt.doctor_id = actor.id)
    (hNoClash : ∀ b ∈ db.appointments, b.id ≠ aid → ¬ sameSlot b apt) :
    update_appointment_by_id db actor aid
      { appointment_date := none, appointment_time := none, reason := none,
        status := some st } =
    (ApptUpdResult.ok { apt with status := st },
     { db with appointments :=
         db.appointments.map (fun b => if b.id == aid then { apt with status := st } else b) }) := by
  have hAny : ∀ apt2 : Appointment, apt2.doctor_id = apt.doctor_id →
      apt2.appointment_date = apt.appointment_date →
      apt2.appointment_time = apt.appointment_time →
      db.appointments.any (fun b =>
        b.id != aid && b.doctor_id == apt2.doctor_id &&
        b.appointment_date == apt2.appointment_date &&
        b.appointment_time == apt2.appointment_time) = false := by
    intro apt2 h1 h2 h3
    rw [Bool.eq_false_iff]
    intro hcontra
    rw [List.any_eq_true] at hcontra
    obtain ⟨b, hb, hpb⟩ := hcontra
    simp only [h1, h2, h3, Bool.and_eq_true, bne_iff_ne, beq_iff_eq] at hpb
    exact hNoClash b hb hpb.1.1.1 ⟨hpb.1.1.2, hpb.1.2, hpb.2⟩
  simp only [update_appointment_by_id, update_appointment, hFind, hRole, hOwn]
  simp only [applyUpdate, Option.getD_none] at hAny ⊢
  rw [hAny _ rfl rfl rfl]
  simp [hOwn]

/-- C3 witness: the resurrection of a COMPLETED appointment, through the
theorem at a concrete state. -/
theorem C3_no_terminal_enforcement_witness :
    update_appointment_by_id dbCompleted { id := 1, role := Role.doctor } 1
      { appointment_date := none, appointment_time := none, reason := none,
        status := some AppointmentStatus.scheduled } =
    (ApptUpdResult.ok { aptNine with status := AppointmentStatus.scheduled },
     { dbCompleted with appointments :=
         dbCompleted.appointments.map (fun b =>
           if b.id == 1 then { aptNine with status := AppointmentStatus.scheduled } else b) }) :=
  C3_no_terminal_enforcement dbCompleted { id := 1, role := Role.doctor } 1
    { aptNine with status := AppointmentStatus.completed } AppointmentStatus.scheduled
    rfl rfl rfl (by decide)

/-- C5 as amended: rescheduling re-validates the new slot with the same
in-window and conflict checks as a fresh booking, excluding the appointment's
own id from the conflict check — an unavailable slot yields the 400 error and
an available one is committed — but the path never consults today's date (no
`PastDate` outcome) and never consults the current status (not restricted to
SCHEDULED), as the counterexample shows. -/
theorem C5_reschedule_checks (db : DB) (actor : Actor) (aid : Nat) (apt : Appointment)
    (u : AppointmentUpdate)
    (hFind : db.appointments.find? (fun a => a.id == aid) = some apt)
    (hRole : actor.role = Role.doctor)
    (hOwn : apt.doctor_id = actor.id)
    (hPresent : (u.appointment_date.isSome || u.appointment_time.isSome) = true) :
    (check_slot_availability db apt.doctor_id (u.appointment_date.getD apt.appointment_date)
        (u.appointment_time.getD apt.appointment_time) aid = false →
      update_appointment_by_id db actor aid u = (ApptUpdResult.slotNotAvailable, db)) ∧
    (check_slot_availability db apt.doctor_id (u.appointment_date.getD apt.appointment_date)
        (u.appointment_time.getD apt.appointment_time) aid = true →
      (∀ b ∈ db.appointments, b.id ≠ aid → ¬ sameSlot b (applyUpdate apt u)) →
      update_appointment_by_id db actor aid u =
        (ApptUpdResult.ok (applyUpdate apt u),
         { db with appointments :=
             db.appointments.map (fun b => if b.id == aid then applyUpdate apt u else b) })) := by
  have hBne : (apt.doctor_id != actor.id) = false := by simp [hOwn]
  constructor
  · intro hAvail
    simp only [update_appointment_by_id, hFind, hRole, hBne, hPresent, hAvail]
    simp
  · intro hAvail hNoClash
    have hAny : db.appointments.any (fun b =>
        b.id != aid && b.doctor_id == (applyUpdate apt u).doctor_id &&
        b.appointment_date == (applyUpdate apt u).appointment_date &&
        b.appointment_time == (applyUpdate apt u).appointment_time) = false := by
      rw [Bool.eq_false_iff]
      intro hcontra
      rw [List.any_eq_true] at hcontra
      obtain ⟨b, hb, hpb⟩ := hcontra
      simp only [Bool.and_eq_true, bne_iff_ne, beq_iff_eq] at hpb
      exact hNoClash b hb hpb.1.1.1 ⟨hpb.1.1.2, hpb.1.2, hpb.2⟩
    simp only [update_appointment_by_id, update_appointment, hFind, hRole, hBne, hPresent,
      hAvail, hAny]
    simp

/-- C5 witness: the validated-and-committed branch of the theorem at the C5
counterexample state (a CANCELLED appointment moved to a past-but-in-window
free slot). -/
theorem C5_reschedule_checks_witness :
    update_appointment_by_id dbCancelled { id := 1, role := Role.doctor } 1
      { appointment_date := some 7, appointment_time := some 600, reason := none,
        status := none } =
    (ApptUpdResult.ok (applyUpdate { aptNine with
        appointment_date := 14, status := AppointmentStatus.cancelled }
      { appointment_date := some 7, appointment_time := some 600, reason := none,
        status := none }),
     { dbCancelled with appointments :=
         dbCancelled.appointments.map (fun b =>
           if b.id == 1 then
             applyUpdate { aptNine with
               appointment_date := 14, status := AppointmentStatus.cancelled }
               { appointment_date := some 7, appointment_time := some 600, reason := none,
                 status := none }
           else b) }) :=
  (C5_reschedule_checks dbCancelled { id := 1, role := Role.doctor } 1
    { aptNine with appointment_date := 14, status := AppointmentStatus.cancelled }
    { appointment_date := some 7, appointment_time := some 600, reason := none,
      status := none }
    rfl rfl rfl rfl).2 rfl (by decide)

/-- C4 as amended: the appointment scan runs on every start/end change,
widening included; a widening edit is accepted exactly when every future
SCHEDULED appointment of the doctor on that weekday lies inside the NEW
bounds — in particular it is accepted whenever all of them lie inside the OLD
bounds, as below — but an appointment outside the new bounds (e.g. one booked
under a different window of the same weekday) makes even a pure widening fail,
as the counterexample shows. -/
theorem C4_widening_scan (today : Nat) (db : DB) (sid : Nat) (sched : Schedule) (ns ne : Nat)
    (hFind : db.schedules.find? (fun s => s.id == sid) = some sched)
    (hs : ns ≤ sched.start_time) (he : sched.end_time ≤ ne)
    (hApts : ∀ a ∈ db.appointments, a.doctor_id = sched.doctor_id →
      a.status = AppointmentStatus.scheduled → today ≤ a.appointment_date →
      weekday a.appointment_date = sched.day_of_week →
      sched.start_time ≤ a.appointment_time ∧ a.appointment_time < sched.end_time)
    (hDup : ∀ s ∈ db.schedules, s.id ≠ sid →
      ¬ (s.doctor_id = sched.doctor_id ∧ s.day_of_week = sched.day_of_week ∧
        s.start_time = ns ∧ s.end_time = ne)) :
    update_schedule today db sid
      { day_of_week := none, start_time := some ns, end_time := some ne,
        slot_duration := none, is_active := none } =
    (SchedUpdResult.ok { sched with start_time := ns, end_time := ne },
     { db with schedules :=
         db.schedules.map (fun s =>
           if s.id == sid then { sched with start_time := ns, end_time := ne } else s) }) := by
  have hHours : ((db.appointments.filter (fun a =>
      a.doctor_id == sched.doctor_id && today ≤ a.appointment_date &&
      a.status == AppointmentStatus.scheduled)).filter (fun a =>
      weekday a.appointment_date == sched.day_of_week &&
      !(ns ≤ a.appointment_time && a.appointment_time < ne))) = [] := by
    rw [List.filter_eq_nil_iff]
    intro a ha
    rw [List.mem_filter] at ha
    obtain ⟨hmem, hpred⟩ := ha
    simp only [Bool.and_eq_true, beq_iff_eq, decide_eq_true_eq] at hpred
    simp only [Bool.and_eq_true, Bool.not_eq_true', beq_iff_eq, not_and]
    intro hwd
    obtain ⟨h1, h2⟩ := hApts a hmem hpred.1.1 hpred.2 hpred.1.2 hwd
    simp [Nat.le_trans hs h1, Nat.lt_of_lt_of_le h2 he]
  have hDupAny : db.schedules.any (fun s =>
      s.id != sid && s.doctor_id == sched.doctor_id &&
      s.day_of_week == sched.day_of_week && s.start_time == ns && s.end_time == ne) =
      false := by
    rw [Bool.eq_false_iff]
    intro hcontra
    rw [List.any_eq_true] at hcontra
    obtain ⟨s, hsm, hps⟩ := hcontra
    simp only [Bool.and_eq_true, bne_iff_ne, beq_iff_eq] at hps
    exact hDup s hsm hps.1.1.1.1 ⟨hps.1.1.1.2, hps.1.1.2, hps.1.2, hps.2⟩
  simp only [update_schedule, hFind, applyScheduleUpdate, Option.getD_some, Option.getD_none,
    Option.isSome_some, hHours, hDupAny]
  simp

/-- C4 witness: widening the lone 9:00-17:00 window of `dbBooked` (whose only
appointment, at 9:00, is inside the old bounds) to 8:00-18:00 succeeds. -/
theorem C4_widening_scan_witness :
    update_schedule 0 dbBooked 1
      { day_of_week := none, start_time := some 480, end_time := some 1080,
        slot_duration := none, is_active := none } =
    (SchedUpdResult.ok { schedNine with start_time := 480, end_time := 1080 },
     { dbBooked with schedules :=
         dbBooked.schedules.map (fun s =>
           if s.id == 1 then { schedNine with start_time := 480, end_time := 1080 } else s) }) :=
  C4_widening_scan 0 dbBooked 1 schedNine 480 1080 rfl (by decide) (by decide)
    (by decide) (by decide)

/-- C10: a successful CRUD `update_appointment` writes exactly the merge of
the found row with the present fields: id, doctor_id, patient_id, duration and
created_at are never touched, each omitted field keeps its prior value, the
schedules table and the id counter are untouched, and every other appointment
row survives unchanged. -/
theorem C10_update_frame (db : DB) (aid : Nat) (u : AppointmentUpdate) (apt a2 : Appointment)
    (db2 : DB)
    (hFind : db.appointments.find? (fun a => a.id == aid) = some apt)
    (hOk : update_appointment db aid u = (CrudUpdResult.ok a2, db2)) :
    a2 = applyUpdate apt u ∧
    a2.id = apt.id ∧ a2.doctor_id = apt.doctor_id ∧ a2.patient_id = apt.patient_id ∧
    a2.duration = apt.duration ∧ a2.created_at = apt.created_at ∧
    (u.appointment_date = none → a2.appointment_date = apt.appointment_date) ∧
    (u.appointment_time = none → a2.appointment_time = apt.appointment_time) ∧
    (u.reason = none → a2.reason = apt.reason) ∧
    (u.status = none → a2.status = apt.status) ∧
    db2.schedules = db.schedules ∧ db2.nextApptId = db.nextApptId ∧
    db2.appointments = db.appointments.map (fun b => if b.id == aid then a2 else b) ∧
    ∀ b ∈ db.appointments, b.id ≠ aid → b ∈ db2.appointments := by
  simp only [update_appointment, hFind] at hOk
  split at hOk
  · simp at hOk
  · simp only [Prod.mk.injEq, CrudUpdResult.ok.injEq] at hOk
    obtain ⟨ha, hdb⟩ := hOk
    subst ha
    subst hdb
    refine ⟨rfl, ?_, ?_, ?_, ?_, ?_, ?_, ?_, ?_, ?_, rfl, rfl, rfl, ?_⟩
    · simp [applyUpdate]
    · simp [applyUpdate]
    · simp [applyUpdate]
    · simp [applyUpdate]
    · simp [applyUpdate]
    · intro h; simp [applyUpdate, h]
    · intro h; simp [applyUpdate, h]
    · intro h; simp [applyUpdate, h]
    · intro h; simp [applyUpdate, h]
    · intro b hb hne
      refine List.mem_map.mpr ⟨b, hb, ?_⟩
      simp [beq_iff_eq, hne]

/-- C10 witness: moving only the time of the single appointment of `dbBooked`
through the theorem. -/
theorem C10_update_frame_witness :
    ({ aptNine with appointment_time := 570 } : Appointment) =
      applyUpdate aptNine
        { appointment_date := none, appointment_time := some 570, reason := none,
          status := none } ∧
    ({ aptNine with appointment_time := 570 } : Appointment).id = aptNine.id ∧
    ({ aptNine with appointment_time := 570 } : Appointment).doctor_id = aptNine.doctor_id ∧
    ({ aptNine with appointment_time := 570 } : Appointment).patient_id = aptNine.patient_id ∧
    ({ aptNine with appointment_time := 570 } : Appointment).duration = aptNine.duration ∧
    ({ aptNine with appointment_time := 570 } : Appointment).created_at = aptNine.created_at ∧
    ((none : Option Nat) = none →
      ({ aptNine with appointment_time := 570 } : Appointment).appointment_date =
        aptNine.appointment_date) ∧
    ((some 570 : Option Nat) = none →
      ({ aptNine with appointment_time := 570 } : Appointment).appointment_time =
        aptNine.appointment_time) ∧
    ((none : Option String) = none →
      ({ aptNine with appointment_time := 570 } : Appointment).reason = aptNine.reason) ∧
    ((none : Option AppointmentStatus) = none →
      ({ aptNine with appointment_time := 570 } : Appointment).status = aptNine.status) ∧
    ({ dbBooked with appointments := [{ aptNine with appointment_time := 570 }] } : DB).schedules =
      dbBooked.schedules ∧
    ({ dbBooked with
       appointments := [{ aptNine with appointment_time := 570 }] } : DB).nextApptId =
      dbBooked.nextApptId ∧
    ({ dbBooked with
       appointments := [{ aptNine with appointment_time := 570 }] } : DB).appointments =
      dbBooked.appointments.map (fun b =>
        if b.id == 1 then { aptNine with appointment_time := 570 } else b) ∧
    ∀ b ∈ dbBooked.appointments, b.id ≠ 1 →
      b ∈ ({ dbBooked with
             appointments := [{ aptNine with appointment_time := 570 }] } : DB).appointments :=
  C10_update_frame dbBooked 1
    { appointment_date := none, appointment_time := some 570, reason := none, status := none }
    aptNine { aptNine with appointment_time := 570 }
    { dbBooked with appointments := [{ aptNine with appointment_time := 570 }] }
    rfl rfl

/-- Once the slot pointer has reached the exit condition, the loop finishes
immediately, whatever fuel is left. -/
theorem genWindowSlots_exit (booked : List (Nat × Nat)) (did d e dur fuel cur : Nat)
    (h : ¬ cur < e) : genWindowSlots booked did d e dur fuel cur = some [] := by
  cases fuel with
  | zero => simp [genWindowSlots, h]
  | succ f => simp [genWindowSlots, h]

/-- Fuel monotonicity: a completed run of the slot loop is unchanged by extra
fuel. -/
theorem genWindowSlots_mono (booked : List (Nat × Nat)) (did d e dur : Nat) :
    ∀ f k cur l, genWindowSlots booked did d e dur f cur = some l →
      genWindowSlots booked did d e dur (f + k) cur = some l := by
  intro f
  induction f with
  | zero =>
    intro k cur l h
    by_cases hc : cur < e
    · simp [genWindowSlots, hc] at h
    · rw [genWindowSlots_exit booked did d e dur (0 + k) cur hc]
      rw [genWindowSlots_exit booked did d e dur 0 cur hc] at h
      exact h
  | succ f ih =>
    intro k cur l h
    by_cases hc : cur < e
    · rw [show f + 1 + k = (f + k) + 1 from by omega]
      simp only [genWindowSlots, if_pos hc] at h ⊢
      cases hg : genWindowSlots booked did d e dur f ((cur + dur) % 1440) with
      | none => rw [hg] at h; simp at h
      | some rest =>
        rw [hg] at h
        rw [ih k _ _ hg]
        exact h
    · rw [genWindowSlots_exit booked did d e dur (f + 1 + k) cur hc]
      rw [genWindowSlots_exit booked did d e dur (f + 1) cur hc] at h
      exact h

/-- C8: for every doctor and every date, with one active 9:00-17:00 window on
that date's weekday, 30-minute slots and no appointments, the generator for
the single-day range returns exactly sixteen slots, the first at 9:00 and the
last at 16:30, all strictly below the 17:00 bound (any fuel covering the 16
loop iterations). -/
theorem C8_nine_to_five_sixteen_slots (did sid d fuel : Nat) (hfuel : 16 ≤ fuel) :
    get_available_slots fuel (nineToFiveDB did sid d) did d d =
      some (nineToFiveSlots d did) ∧
    (nineToFiveSlots d did).length = 16 ∧
    (nineToFiveSlots d did).head? = some { date := d, time := 540, doctor_id := did } ∧
    (nineToFiveSlots d did).getLast? = some { date := d, time := 990, doctor_id := did } ∧
    ∀ s ∈ nineToFiveSlots d did, 540 ≤ s.time ∧ s.time < 1020 := by
  have h16 : genWindowSlots [] did d 1020 30 16 540 = some (nineToFiveSlots d did) := rfl
  obtain ⟨k, hk⟩ := Nat.le.dest hfuel
  have hgen : genWindowSlots [] did d 1020 30 fuel 540 = some (nineToFiveSlots d did) := by
    rw [← hk]
    exact genWindowSlots_mono [] did d 1020 30 16 k 540 _ h16
  refine ⟨?_, rfl, rfl, rfl, ?_⟩
  · have hsch : get_schedules_by_doctor (nineToFiveDB did sid d) did =
        [{ id := sid, doctor_id := did, day_of_week := weekday d, start_time := 540,
           end_time := 1020, slot_duration := 30, is_active := true }] := by
      simp [get_schedules_by_doctor, sortSchedules, insertSched, nineToFiveDB]
    have e2 : d + 1 - d = 1 := by omega
    simp only [get_available_slots, hsch]
    simp only [nineToFiveDB, List.isEmpty_cons, List.filter_nil, List.map_nil, e2]
    simp only [availLoop, daySlots, List.filter_cons, List.filter_nil, beq_self_eq_true,
      Bool.and_self, if_true, hgen]
    simp
  · intro s hs
    simp only [nineToFiveSlots, List.mem_cons, List.not_mem_nil, or_false] at hs
    rcases hs with rfl | rfl | rfl | rfl | rfl | rfl | rfl | rfl | rfl | rfl | rfl | rfl |
      rfl | rfl | rfl | rfl <;> exact ⟨by norm_num, by norm_num⟩

/-- C8 witness: doctor 1, window id 1, day 7 (a Monday), fuel 16. -/
theorem C8_nine_to_five_sixteen_slots_witness :
    get_available_slots 16 (nineToFiveDB 1 1 7) 1 7 7 = some (nineToFiveSlots 7 1) ∧
    (nineToFiveSlots 7 1).length = 16 ∧
    (nineToFiveSlots 7 1).head? = some { date := 7, time := 540, doctor_id := 1 } ∧
    (nineToFiveSlots 7 1).getLast? = some { date := 7, time := 990, doctor_id := 1 } ∧
    ∀ s ∈ nineToFiveSlots 7 1, 540 ≤ s.time ∧ s.time < 1020 :=
  C8_nine_to_five_sixteen_slots 1 1 7 16 (by norm_num)

/-- Every slot the inner window loop emits carries the date being iterated. -/
theorem genWindowSlots_date (booked : List (Nat × Nat)) (did d e dur : Nat) :
    ∀ f cur l, genWindowSlots booked did d e dur f cur = some l →
      ∀ s ∈ l, s.date = d := by
  intro f
  induction f with
  | zero =>
    intro cur l h s hs
    by_cases hc : cur < e
    · simp [genWindowSlots, hc] at h
    · simp only [genWindowSlots, if_neg hc, Option.some.injEq] at h
      subst h
      simp at hs
  | succ f ih =>
    intro cur l h s hs
    by_cases hc : cur < e
    · simp only [genWindowSlots, if_pos hc] at h
      cases hg : genWindowSlots booked did d e dur f ((cur + dur) % 1440) with
      | none => rw [hg] at h; simp at h
      | some rest =>
        rw [hg] at h
        dsimp only at h
        by_cases hbk : booked.contains (d, cur) = true
        · rw [if_pos hbk] at h
          rw [Option.some.injEq] at h
          subst h
          exact ih _ _ hg s hs
        · rw [if_neg hbk] at h
          rw [Option.some.injEq] at h
          subst h
          rcases List.mem_cons.mp hs with hh | ht
          · subst hh; rfl
          · exact ih _ _ hg s ht
    · simp only [genWindowSlots, if_neg hc, Option.some.injEq] at h
      subst h
      simp at hs

/-- Every slot the per-day loop emits carries the date being iterated. -/
theorem daySlots_date (booked : List (Nat × Nat)) (did d fuel : Nat) :
    ∀ ss l, daySlots booked did d fuel ss = some l → ∀ s ∈ l, s.date = d := by
  intro ss
  induction ss with
  | nil =>
    intro l h s hs
    simp only [daySlots, Option.some.injEq] at h
    subst h
    simp at hs
  | cons hd tl ih =>
    intro l h s hs
    simp only [daySlots] at h
    cases hg : genWindowSlots booked did d hd.end_time hd.slot_duration fuel hd.start_time with
    | none => rw [hg] at h; simp at h
    | some w =>
      cases hds : daySlots booked did d fuel tl with
      | none => rw [hg, hds] at h; simp at h
      | some rest =>
        rw [hg, hds] at h
        rw [Option.some.injEq] at h
        subst h
        rcases List.mem_append.mp hs with hw | hr
        · exact genWindowSlots_date booked did d hd.end_time hd.slot_duration fuel
            hd.start_time w hg s hw
        · exact ih rest hds s hr

/-- Every slot the date loop emits dates at or after the day it starts on. -/
theorem availLoop_date_lb (schedules : List Schedule) (booked : List (Nat × Nat))
    (did fuel : Nat) : ∀ n dd l, availLoop schedules booked did fuel n dd = some l →
      ∀ s ∈ l, dd ≤ s.date := by
  intro n
  induction n with
  | zero =>
    intro dd l h s hs
    simp only [availLoop, Option.some.injEq] at h
    subst h
    simp at hs
  | succ n ih =>
    intro dd l h s hs
    simp only [availLoop] at h
    cases hd : daySlots booked did dd fuel
        (schedules.filter (fun s => s.day_of_week == weekday dd)) with
    | none => rw [hd] at h; simp at h
    | some here =>
      cases hr : availLoop schedules booked did fuel n (dd + 1) with
      | none => rw [hd, hr] at h; simp at h
      | some rest =>
        rw [hd, hr] at h
        rw [Option.some.injEq] at h
        subst h
        rcases List.mem_append.mp hs with hh | ht
        · exact Nat.le_of_eq (daySlots_date booked did dd fuel _ here hd s hh).symm
        · exact Nat.le_of_succ_le (ih (dd + 1) rest hr s ht)

/-- A constant list is weakly sorted. -/
theorem pairwise_le_of_forall_eq (c : Nat) : ∀ l : List Nat, (∀ x ∈ l, x = c) →
    l.Pairwise (fun a b => a ≤ b) := by
  intro l
  induction l with
  | nil => intro _; exact List.Pairwise.nil
  | cons x xs ih =>
    intro h
    refine List.Pairwise.cons ?_ (ih (fun y hy => h y (List.mem_cons_of_mem x hy)))
    intro y hy
    rw [h x (List.mem_cons_self x xs), h y (List.mem_cons_of_mem x hy)]

/-- The dates of the date loop's output are weakly increasing. -/
theorem availLoop_dates_sorted (schedules : List Schedule) (booked : List (Nat × Nat))
    (did fuel : Nat) : ∀ n dd l, availLoop schedules booked did fuel n dd = some l →
      (l.map AvailableSlot.date).Pairwise (fun a b => a ≤ b) := by
  intro n
  induction n with
  | zero =>
    intro dd l h
    simp only [availLoop, Option.some.injEq] at h
    subst h
    exact List.Pairwise.nil
  | succ n ih =>
    intro dd l h
    simp only [availLoop] at h
    cases hd : daySlots booked did dd fuel
        (schedules.filter (fun s => s.day_of_week == weekday dd)) with
    | none => rw [hd] at h; simp at h
    | some here =>
      cases hr : availLoop schedules booked did fuel n (dd + 1) with
      | none => rw [hd, hr] at h; simp at h
      | some rest =>
        rw [hd, hr] at h
        rw [Option.some.injEq] at h
        subst h
        rw [List.map_append, List.pairwise_append]
        refine ⟨?_, ih (dd + 1) rest hr, ?_⟩
        · refine pairwise_le_of_forall_eq dd _ ?_
          intro x hx
          obtain ⟨s, hs, hsx⟩ := List.mem_map.mp hx
          rw [← hsx]
          exact daySlots_date booked did dd fuel _ here hd s hs
        · intro a ha b hb
          obtain ⟨s, hs, hsa⟩ := List.mem_map.mp ha
          obtain ⟨t, ht, htb⟩ := List.mem_map.mp hb
          rw [← hsa, ← htb]
          rw [daySlots_date booked did dd fuel _ here hd s hs]
          exact Nat.le_of_succ_le (availLoop_date_lb schedules booked did fuel n (dd + 1)
            rest hr t ht)

/-- C6 as amended: the generator's output is grouped by date in weakly
increasing order, but within a day the slots follow window enumeration order
rather than global time order, and no dedup by (date, time) is performed —
overlapping same-day windows yield duplicate pairs (see the counterexample). -/
theorem C6_dates_weakly_sorted (fuel : Nat) (db : DB) (did sd ed : Nat)
    (L : List AvailableSlot) (h : get_available_slots fuel db did sd ed = some L) :
    (L.map AvailableSlot.date).Pairwise (fun a b => a ≤ b) := by
  simp only [get_available_slots] at h
  split at h
  · rw [Option.some.injEq] at h
    subst h
    exact List.Pairwise.nil
  · exact availLoop_dates_sorted _ _ did fuel _ sd L h

/-- C6 witness: the theorem at the overlapping-windows state. -/
theorem C6_dates_weakly_sorted_witness :
    (overlapOut.map AvailableSlot.date).Pairwise (fun a b => a ≤ b) :=
  C6_dates_weakly_sorted 50 dbOverlap 1 0 0 overlapOut rfl

/-- `sameSlot` is symmetric. -/
theorem sameSlot_symm {a b : Appointment} (h : sameSlot a b) : sameSlot b a :=
  ⟨h.1.symm, h.2.1.symm, h.2.2.symm⟩

/-- Replacing the row with id `aid` keeps every row's id. -/
theorem replace_id (aid : Nat) (apt2 : Appointment) (hid : apt2.id = aid) :
    ∀ c : Appointment, (if c.id == aid then apt2 else c).id = c.id := by
  intro c
  by_cases hc : c.id = aid
  · simp [hc, hid]
  · simp [hc]

/-- Replacing the row with id `aid` by a row that collides with no other row
preserves triple uniqueness. -/
theorem uniqueTriples_replace (l : List Appointment) (aid : Nat) (apt2 : Appointment)
    (hIds : UniqueIds l) (hTr : UniqueTriples l)
    (hNoClash : ∀ b ∈ l, b.id ≠ aid → ¬ sameSlot b apt2) :
    UniqueTriples (l.map (fun b => if b.id == aid then apt2 else b)) := by
  have hfa : ∀ c : Appointment, c.id = aid → (if c.id == aid then apt2 else c) = apt2 := by
    intro c hc
    simp [hc]
  have hfb : ∀ c : Appointment, c.id ≠ aid → (if c.id == aid then apt2 else c) = c := by
    intro c hc
    simp [hc]
  have hPair := hIds.and hTr
  rw [UniqueTriples, List.pairwise_map]
  refine hPair.imp_of_mem ?_
  intro a b ha hb hab
  obtain ⟨hid, hss⟩ := hab
  by_cases ha2 : a.id = aid
  · rw [hfa a ha2]
    have hb2 : b.id ≠ aid := fun hbe => hid (ha2.trans hbe.symm)
    rw [hfb b hb2]
    exact fun hx => hNoClash b hb hb2 (sameSlot_symm hx)
  · rw [hfb a ha2]
    by_cases hb2 : b.id = aid
    · rw [hfa b hb2]
      exact hNoClash a ha ha2
    · rw [hfb b hb2]
      exact hss

/-- Replacing the row with id `aid` by a row with the same id preserves id
uniqueness. -/
theorem uniqueIds_replace (l : List Appointment) (aid : Nat) (apt2 : Appointment)
    (hid : apt2.id = aid) (hIds : UniqueIds l) :
    UniqueIds (l.map (fun b => if b.id == aid then apt2 else b)) := by
  rw [UniqueIds, List.pairwise_map]
  refine hIds.imp ?_
  intro a b hab
  rw [replace_id aid apt2 hid, replace_id aid apt2 hid]
  exact hab

/-- The CRUD insert preserves the appointments-table invariant. -/
theorem create_appointment_inv (db : DB) (req : AppointmentCreate) (pid today : Nat)
    (hInv : Inv db) : Inv (create_appointment db req pid today).2 := by
  simp only [create_appointment]
  by_cases hAny : (db.appointments.any (fun b =>
      b.doctor_id == req.doctor_id && b.appointment_date == req.appointment_date &&
      b.appointment_time == req.appointment_time)) = true
  · rw [if_pos hAny]
    exact hInv
  · rw [if_neg hAny]
    obtain ⟨hIds, hBelow, hTr⟩ := hInv
    refine ⟨?_, ?_, ?_⟩
    · rw [UniqueIds, List.pairwise_append]
      refine ⟨hIds, List.pairwise_singleton _ _, ?_⟩
      intro x hx y hy
      rw [List.mem_singleton] at hy
      subst hy
      exact Nat.ne_of_lt (hBelow x hx)
    · intro x hx
      rcases List.mem_append.mp hx with hxl | hxr
      · exact Nat.lt_succ_of_lt (hBelow x hxl)
      · rw [List.mem_singleton] at hxr
        subst hxr
        exact Nat.lt_succ_self _
    · rw [UniqueTriples, List.pairwise_append]
      refine ⟨hTr, List.pairwise_singleton _ _, ?_⟩
      intro x hx y hy
      rw [List.mem_singleton] at hy
      subst hy
      intro hss
      apply hAny
      rw [List.any_eq_true]
      refine ⟨x, hx, ?_⟩
      simp only [sameSlot] at hss
      simp [hss.1, hss.2.1, hss.2.2]


/-- The CRUD update preserves the appointments-table invariant. -/
theorem update_appointment_inv (db : DB) (aid : Nat) (u : AppointmentUpdate)
    (hInv : Inv db) : Inv (update_appointment db aid u).2 := by
  simp only [update_appointment]
  cases hFind : db.appointments.find? (fun a => a.id == aid) with
  | none => exact hInv
  | some apt =>
    dsimp only
    have haptid : apt.id = aid := by
      have h := List.find?_some hFind
      rwa [beq_iff_eq] at h
    by_cases hAny : (db.appointments.any (fun b =>
        b.id != aid && b.doctor_id == (applyUpdate apt u).doctor_id &&
        b.appointment_date == (applyUpdate apt u).appointment_date &&
        b.appointment_time == (applyUpdate apt u).appointment_time)) = true
    · rw [if_pos hAny]
      exact hInv
    · rw [if_neg hAny]
      obtain ⟨hIds, hBelow, hTr⟩ := hInv
      have hNoClash : ∀ b ∈ db.appointments, b.id ≠ aid →
          ¬ sameSlot b (applyUpdate apt u) := by
        intro b hb hbne hss
        apply hAny
        rw [List.any_eq_true]
        refine ⟨b, hb, ?_⟩
        simp only [sameSlot] at hss
        simp [bne_iff_ne, hbne, hss.1, hss.2.1, hss.2.2]
      have hid2 : (applyUpdate apt u).id = aid := haptid
      refine ⟨?_, ?_, ?_⟩
      · exact uniqueIds_replace db.appointments aid (applyUpdate apt u) hid2 hIds
      · intro x hx
        obtain ⟨b, hb, hbx⟩ := List.mem_map.mp hx
        rw [← hbx, replace_id aid (applyUpdate apt u) hid2]
        exact hBelow b hb
      · exact uniqueTriples_replace db.appointments aid (applyUpdate apt u) hIds hTr hNoClash

/-- The `POST /appointments/` handler preserves the invariant. -/
theorem create_new_appointment_inv (today : Nat) (db : DB) (actor : Actor)
    (req : AppointmentCreate) (hInv : Inv db) :
    Inv (create_new_appointment today db actor req).2 := by
  simp only [create_new_appointment]
  by_cases h1 : req.appointment_date < today
  · rw [if_pos h1]
    exact hInv
  · rw [if_neg h1]
    by_cases h2 : (actor.role != Role.patient) = true
    · rw [if_pos h2]
      exact hInv
    · rw [if_neg h2]
      by_cases h3 : (!check_slot_availability db req.doctor_id req.appointment_date
          req.appointment_time 0) = true
      · rw [if_pos h3]
        exact hInv
      · rw [if_neg h3]
        have hc := create_appointment_inv db req actor.id today hInv
        cases hcr : create_appointment db req actor.id today with
        | mk o d =>
          rw [hcr] at hc
          cases o <;> exact hc

/-- The `PUT /appointments/{id}` handler preserves the invariant. -/
theorem update_appointment_by_id_inv (db : DB) (actor : Actor) (aid : Nat)
    (u : AppointmentUpdate) (hInv : Inv db) :
    Inv (update_appointment_by_id db actor aid u).2 := by
  simp only [update_appointment_by_id]
  cases hFind : db.appointments.find? (fun a => a.id == aid) with
  | none => exact hInv
  | some apt =>
    dsimp only
    by_cases h1 : (actor.role == Role.patient && apt.patient_id != actor.id) = true
    · rw [if_pos h1]
      exact hInv
    · rw [if_neg h1]
      by_cases h2 : (actor.role == Role.patient && u.status.isSome &&
          u.status != some AppointmentStatus.cancelled) = true
      · rw [if_pos h2]
        exact hInv
      · rw [if_neg h2]
        by_cases h3 : (actor.role == Role.doctor && apt.doctor_id != actor.id) = true
        · rw [if_pos h3]
          exact hInv
        · rw [if_neg h3]
          by_cases h4 : ((u.appointment_date.isSome || u.appointment_time.isSome) &&
              !check_slot_availability db apt.doctor_id
                (u.appointment_date.getD apt.appointment_date)
                (u.appointment_time.getD apt.appointment_time) aid) = true
          · rw [if_pos h4]
            exact hInv
          · rw [if_neg h4]
            have hu := update_appointment_inv db aid u hInv
            cases hur : update_appointment db aid u with
            | mk r d =>
              rw [hur] at hu
              cases r <;> exact hu

/-- The `DELETE /appointments/{id}` handler preserves the invariant. -/
theorem cancel_appointment_inv (db : DB) (actor : Actor) (aid : Nat) (hInv : Inv db) :
    Inv (cancel_appointment db actor aid).2 := by
  simp only [cancel_appointment]
  cases hFind : db.appointments.find? (fun a => a.id == aid) with
  | none => exact hInv
  | some apt =>
    dsimp only
    by_cases h1 : (actor.role == Role.patient && apt.patient_id != actor.id) = true
    · rw [if_pos h1]
      exact hInv
    · rw [if_neg h1]
      by_cases h2 : (actor.role == Role.doctor && apt.doctor_id != actor.id) = true
      · rw [if_pos h2]
        exact hInv
      · rw [if_neg h2]
        have hu := update_appointment_inv db aid
          { appointment_date := none, appointment_time := none, reason := none,
            status := some AppointmentStatus.cancelled } hInv
        cases hur : update_appointment db aid
            { appointment_date := none, appointment_time := none, reason := none,
              status := some AppointmentStatus.cancelled } with
        | mk r d =>
          rw [hur] at hu
          cases r <;> exact hu

/-- The invariant only mentions the appointments table and its id counter, so
it transports along states that agree there. -/
theorem inv_of_same_appts (db db2 : DB) (h1 : db2.appointments = db.appointments)
    (h2 : db2.nextApptId = db.nextApptId) (hInv : Inv db) : Inv db2 := by
  obtain ⟨hIds, hBelow, hTr⟩ := hInv
  refine ⟨by rw [h1]; exact hIds, ?_, by rw [h1]; exact hTr⟩
  intro a ha
  rw [h1] at ha
  rw [h2]
  exact hBelow a ha

/-- `POST /schedules/` never touches the appointments table. -/
theorem create_doctor_schedule_appts (db : DB) (actor : Actor) (sc : ScheduleCreate) :
    (create_doctor_schedule db actor sc).2.appointments = db.appointments ∧
    (create_doctor_schedule db actor sc).2.nextApptId = db.nextApptId := by
  simp only [create_doctor_schedule]
  split
  · exact ⟨rfl, rfl⟩
  · split
    · exact ⟨rfl, rfl⟩
    · split
      · exact ⟨rfl, rfl⟩
      · exact ⟨rfl, rfl⟩

/-- The CRUD schedule update never touches the appointments table. -/
theorem update_schedule_appts (today : Nat) (db : DB) (sid : Nat) (u : ScheduleUpdate) :
    (update_schedule today db sid u).2.appointments = db.appointments ∧
    (update_schedule today db sid u).2.nextApptId = db.nextApptId := by
  simp only [update_schedule]
  cases db.schedules.find? (fun s => s.id == sid) with
  | none => exact ⟨rfl, rfl⟩
  | some schedule =>
    dsimp only
    split
    · exact ⟨rfl, rfl⟩
    · split
      · exact ⟨rfl, rfl⟩
      · split
        · exact ⟨rfl, rfl⟩
        · exact ⟨rfl, rfl⟩

/-- `PUT /schedules/{id}` never touches the appointments table. -/
theorem update_doctor_schedule_appts (today : Nat) (db : DB) (actor : Actor) (sid : Nat)
    (u : ScheduleUpdate) :
    (update_doctor_schedule today db actor sid u).2.appointments = db.appointments ∧
    (update_doctor_schedule today db actor sid u).2.nextApptId = db.nextApptId := by
  simp only [update_doctor_schedule]
  cases db.schedules.find? (fun s => s.id == sid) with
  | none => exact ⟨rfl, rfl⟩
  | some schedule =>
    dsimp only
    split
    · exact ⟨rfl, rfl⟩
    · exact update_schedule_appts today db sid u

/-- `DELETE /schedules/{id}` never touches the appointments table. -/
theorem delete_doctor_schedule_appts (today : Nat) (db : DB) (actor : Actor) (sid : Nat) :
    (delete_doctor_schedule today db actor sid).2.appointments = db.appointments ∧
    (delete_doctor_schedule today db actor sid).2.nextApptId = db.nextApptId := by
  simp only [delete_doctor_schedule]
  cases db.schedules.find? (fun s => s.id == sid) with
  | none => exact ⟨rfl, rfl⟩
  | some schedule =>
    dsimp only
    split
    · exact ⟨rfl, rfl⟩
    · split
      · exact ⟨rfl, rfl⟩
      · exact ⟨rfl, rfl⟩

/-- Every API operation preserves the appointments-table invariant. -/
theorem step_inv (today : Nat) (db : DB) (op : Op) (hInv : Inv db) :
    Inv (step today db op) := by
  cases op with
  | book a r => exact create_new_appointment_inv today db a r hInv
  | putAppt a i u => exact update_appointment_by_id_inv db a i u hInv
  | delAppt a i => exact cancel_appointment_inv db a i hInv
  | postSched a sc =>
    obtain ⟨h1, h2⟩ := create_doctor_schedule_appts db a sc
    exact inv_of_same_appts db _ h1 h2 hInv
  | putSched a i u =>
    obtain ⟨h1, h2⟩ := update_doctor_schedule_appts today db a i u
    exact inv_of_same_appts db _ h1 h2 hInv
  | delSched a i =>
    obtain ⟨h1, h2⟩ := delete_doctor_schedule_appts today db a i
    exact inv_of_same_appts db _ h1 h2 hInv

/-- The empty database satisfies the invariant. -/
theorem inv_empty : Inv emptyDB :=
  ⟨List.Pairwise.nil, fun a ha => absurd ha (List.not_mem_nil a), List.Pairwise.nil⟩

/-- Folding any operation sequence from an invariant state stays invariant. -/
theorem foldl_inv (today : Nat) : ∀ (ops : List Op) (db : DB), Inv db →
    Inv (ops.foldl (step today) db) := by
  intro ops
  induction ops with
  | nil => intro db hInv; exact hInv
  | cons op ops ih => intro db hInv; exact ih (step today db op) (step_inv today db op hInv)

/-- Every state reachable from the empty database satisfies the invariant. -/
theorem run_inv (today : Nat) (ops : List Op) : Inv (run today ops) :=
  foldl_inv today ops emptyDB inv_empty

/-- Pairwise-distinct triples bound the per-triple non-cancelled count by
one. -/
theorem atMostOne_of_uniqueTriples (l : List Appointment) (hTr : UniqueTriples l)
    (did d t : Nat) :
    (l.filter (fun a => a.doctor_id == did && a.appointment_date == d &&
      a.appointment_time == t && a.status != AppointmentStatus.cancelled)).length ≤ 1 := by
  have hsub : (l.filter (fun a => a.doctor_id == did && a.appointment_date == d &&
      a.appointment_time == t && a.status != AppointmentStatus.cancelled)).Pairwise
        (fun a b => ¬ sameSlot a b) :=
    List.Pairwise.sublist (List.filter_sublist l) hTr
  cases hfl : l.filter (fun a => a.doctor_id == did && a.appointment_date == d &&
      a.appointment_time == t && a.status != AppointmentStatus.cancelled) with
  | nil => simp
  | cons x xs =>
    cases xs with
    | nil => simp
    | cons y ys =>
      exfalso
      rw [hfl] at hsub
      have hxy := (List.pairwise_cons.mp hsub).1 y (List.mem_cons_self y ys)
      have hx : x ∈ l.filter (fun a => a.doctor_id == did && a.appointment_date == d &&
          a.appointment_time == t && a.status != AppointmentStatus.cancelled) :=
        hfl ▸ List.mem_cons_self x (y :: ys)
      have hy : y ∈ l.filter (fun a => a.doctor_id == did && a.appointment_date == d &&
          a.appointment_time == t && a.status != AppointmentStatus.cancelled) :=
        hfl ▸ List.mem_cons_of_mem x (List.mem_cons_self y ys)
      have px := (List.mem_filter.mp hx).2
      have py := (List.mem_filter.mp hy).2
      simp only [Bool.and_eq_true, beq_iff_eq] at px py
      exact hxy ⟨px.1.1.1.trans py.1.1.1.symm, px.1.1.2.trans py.1.1.2.symm,
        px.1.2.trans py.1.2.symm⟩

/-- If some non-CANCELLED appointment already occupies the requested
(doctor, date, time) triple, the availability check fails. -/
theorem check_slot_availability_false_of_booked (db : DB) (did d t : Nat)
    (h : ∃ a ∈ db.appointments, a.doctor_id = did ∧ a.appointment_date = d ∧
      a.appointment_time = t ∧ a.status ≠ AppointmentStatus.cancelled) :
    check_slot_availability db did d t 0 = false := by
  obtain ⟨a, ha, h1, h2, h3, h4⟩ := h
  simp only [check_slot_availability]
  cases hS : db.schedules.find? (fun s =>
      s.doctor_id == did && s.day_of_week == weekday d && s.is_active) with
  | none => rfl
  | some schedule =>
    dsimp only
    by_cases hw : (schedule.start_time ≤ t && t < schedule.end_time) = true
    · rw [if_pos hw]
      cases hF : db.appointments.find? (fun a =>
          a.doctor_id == did && a.appointment_date == d && a.appointment_time == t &&
          a.status != AppointmentStatus.cancelled && ((0 : Nat) == 0 || a.id != 0)) with
      | none =>
        exfalso
        rw [List.find?_eq_none] at hF
        exact hF a ha (by simp [h1, h2, h3, bne_iff_ne, h4])
      | some x => rfl
    · rw [if_neg hw]

/-- C1: (a) booking a (doctor, date, time) triple already held by a
non-CANCELLED appointment fails with the 400 "not available" outcome of the
availability check — the Conflict of the spec — leaving the state unchanged;
(b) after any sequence of API operations from the empty database, at most one
non-CANCELLED appointment exists per triple (here even unconditionally, since
the uniqueness constraint covers all rows). -/
theorem C1_double_booking_conflict :
    (∀ (today : Nat) (db : DB) (actor : Actor) (req : AppointmentCreate),
      actor.role = Role.patient →
      today ≤ req.appointment_date →
      (∃ a ∈ db.appointments, a.doctor_id = req.doctor_id ∧
        a.appointment_date = req.appointment_date ∧
        a.appointment_time = req.appointment_time ∧
        a.status ≠ AppointmentStatus.cancelled) →
      create_new_appointment today db actor req = (BookResult.slotNotAvailable, db)) ∧
    (∀ (today : Nat) (ops : List Op), AtMostOneActive (run today ops)) := by
  constructor
  · intro today db actor req hRole hToday hBooked
    have hAvail := check_slot_availability_false_of_booked db req.doctor_id
      req.appointment_date req.appointment_time hBooked
    simp only [create_new_appointment]
    rw [if_neg (Nat.not_lt.mpr hToday)]
    rw [if_neg (by simp [hRole] : ¬ ((actor.role != Role.patient) = true))]
    rw [hAvail]
    rfl
  · intro today ops did d t
    exact atMostOne_of_uniqueTriples (run today ops).appointments
      (run_inv today ops).2.2 did d t

/-- C1 witness: the second identical booking against `dbBooked` is refused
with the state unchanged, and a concrete create-book-book run satisfies the
per-triple bound. -/
theorem C1_double_booking_conflict_witness :
    create_new_appointment 0 dbBooked { id := 3, role := Role.patient }
      { doctor_id := 1, appointment_date := 7, appointment_time := 540,
        reason := "second", duration := 30 } = (BookResult.slotNotAvailable, dbBooked) ∧
    AtMostOneActive (run 0
      [Op.postSched { id := 1, role := Role.doctor }
        { day_of_week := 0, start_time := 540, end_time := 1020, slot_duration := 30 },
       Op.book { id := 2, role := Role.patient }
        { doctor_id := 1, appointment_date := 7, appointment_time := 540,
          reason := "first", duration := 30 },
       Op.book { id := 3, role := Role.patient }
        { doctor_id := 1, appointment_date := 7, appointment_time := 540,
          reason := "second", duration := 30 }]) :=
  ⟨C1_double_booking_conflict.1 0 dbBooked { id := 3, role := Role.patient }
    { doctor_id := 1, appointment_date := 7, appointment_time := 540,
      reason := "second", duration := 30 } rfl (by norm_num) (by decide),
   C1_double_booking_conflict.2 0 _⟩

end DoctorApt
